import Mathlib

/-
Verification of the digit-extraction pipeline of read_digits
(readdigits.py, gui.py), as a shallow embedding in Lean 4.

Grayscale images are matrices of natural-number intensities given as
lists of rows.  numpy averages are rationals; `none` models the NaN
produced by `np.average` on an empty slice (any Python comparison with
NaN is false).  Python `int()` on the nonnegative quantities appearing
in the source is floor, embedded as natural division.
-/

set_option maxRecDepth 8000

abbrev Img := List (List ℕ)

/-- Python slice l[a:b]: indices are clamped to [0, len] and a negative
index counts from the end. -/
def pySlice {α : Type} (l : List α) (a b : ℤ) : List α :=
  let n := l.length
  let norm : ℤ → ℕ := fun i => if i < 0 then min (n + i).toNat n else min i.toNat n
  ((l.drop (norm a)).take (norm b - norm a))

/-- numpy 2-D slice img[r0:r1, c0:c1], flattened to its cell list. -/
def sliceCells (img : Img) (r0 r1 c0 c1 : ℤ) : List ℕ :=
  ((pySlice img r0 r1).map (fun row => pySlice row c0 c1)).flatten

/-- np.average over a 2-D slice; `none` is the NaN of an empty slice. -/
def sliceAvg (img : Img) (r0 r1 c0 c1 : ℤ) : Option ℚ :=
  let cells := sliceCells img r0 r1 c0 c1
  if cells.length = 0 then none
  else some ((cells.sum : ℚ) / (cells.length : ℚ))

/-- Python `a < b` where either side may be NaN: NaN comparisons are false. -/
def oLt (a b : Option ℚ) : Bool :=
  match a, b with
  | some x, some y => decide (x < y)
  | _, _ => false

/-- Number of rows (img.shape[0]). -/
def shapeH (img : Img) : ℕ := img.length

/-- Number of columns (img.shape[1]) of a rectangular image. -/
def shapeW (img : Img) : ℕ := (img.headD []).length

/-- aspect_rate = Sheight / Swidth (readdigits.py line 341). -/
def aspectRate (img : Img) : ℚ := (shapeH img : ℚ) / (shapeW img : ℚ)

/-- DIGITS_LOOKUP (readdigits.py lines 15-29): the 7-segment decode table,
with intentional duplicate patterns for 6, 7 and 9. -/
def DIGITS_LOOKUP (t : List ℕ) : Option String :=
  if t = [1,1,1,0,1,1,1] then some "0"
  else if t = [0,0,1,0,0,1,0] then some "1"
  else if t = [1,0,1,1,1,0,1] then some "2"
  else if t = [1,0,1,1,0,1,1] then some "3"
  else if t = [0,1,1,1,0,1,0] then some "4"
  else if t = [1,1,0,1,0,1,1] then some "5"
  else if t = [0,1,0,1,1,1,1] then some "6"
  else if t = [1,1,0,1,1,1,1] then some "6"
  else if t = [1,0,1,0,0,1,0] then some "7"
  else if t = [1,1,1,0,0,1,0] then some "7"
  else if t = [1,1,1,1,1,1,1] then some "8"
  else if t = [1,1,1,1,0,1,1] then some "9"
  else if t = [1,1,1,1,0,1,0] then some "9"
  else if t = [0,0,0,1,0,0,0] then some "-"
  else none

/-- The seven zone samples of a full-size glyph and the resulting 7-bit
tuple (read_char, readdigits.py lines 342-346 and 373-385).  A zone is on
when its average exceeds `max(20, mean of the two vertical-center
samples)`; the upper-right and lower-right zones stop one column short of
the right edge (the `-1` slice bound in the source). -/
def segTuple (img : Img) : List ℕ :=
  let Sheight := shapeH img
  let Swidth := shapeW img
  let wid : ℤ := if Swidth > 20 then (Swidth / 20 : ℕ) else 1
  let hei : ℤ := if Sheight > 20 then (Sheight / 20 : ℕ) else 1
  let mid0 : ℤ := ((Swidth / 2 : ℕ) : ℤ) - wid
  let mid1 : ℤ := ((Swidth / 2 : ℕ) : ℤ) + wid
  let upp0 : ℤ := ((Sheight / 4 : ℕ) : ℤ) - hei
  let upp1 : ℤ := ((Sheight / 4 : ℕ) : ℤ) + hei
  let dwn0 : ℤ := ((3 * Sheight / 4 : ℕ) : ℤ) - hei
  let dwn1 : ℤ := ((3 * Sheight / 4 : ℕ) : ℤ) + hei
  let thresh_darkest : ℚ := 20
  let center : Option ℚ :=
    match sliceAvg img upp0 upp1 mid0 mid1, sliceAvg img dwn0 dwn1 mid0 mid1 with
    | some x, some y => some ((x + y) / 2)
    | _, _ => none
  let darkest : ℚ :=
    match center with
    | some x => max thresh_darkest x
    | none => thresh_darkest
  let zones : List (Option ℚ) :=
    [sliceAvg img 0 ((Sheight / 3 : ℕ) : ℤ) mid0 mid1,
     sliceAvg img upp0 upp1 0 ((Swidth / 3 : ℕ) : ℤ),
     sliceAvg img upp0 upp1 ((2 * Swidth / 3 : ℕ) : ℤ) (-1),
     sliceAvg img ((Sheight / 3 : ℕ) : ℤ) ((2 * Sheight / 3 : ℕ) : ℤ) mid0 mid1,
     sliceAvg img dwn0 dwn1 0 ((Swidth / 3 : ℕ) : ℤ),
     sliceAvg img dwn0 dwn1 ((2 * Swidth / 3 : ℕ) : ℤ) (-1),
     sliceAvg img ((2 * Sheight / 3 : ℕ) : ℤ) (Sheight : ℤ) mid0 mid1]
  zones.map (fun s =>
    match s with
    | some x => if darkest < x then 1 else 0
    | none => 0)

/-- The plus-sign test of read_char's mid-height branch (lines 354-366):
the four corner-quadrant samples must all be darker than each of the
three cross/center samples. -/
def plusTest (img : Img) : Bool :=
  let Sheight := shapeH img
  let Swidth := shapeW img
  let h : ℤ := ((Sheight / 3 : ℕ) : ℤ)
  let h2 : ℤ := ((2 * Sheight / 3 : ℕ) : ℤ)
  let w : ℤ := ((Swidth / 5 : ℕ) : ℤ)
  let darks : List (Option ℚ) :=
    [sliceAvg img 0 h 0 w,
     sliceAvg img 0 h ((4 * Swidth / 5 : ℕ) : ℤ) (Swidth : ℤ),
     sliceAvg img h2 (Sheight : ℤ) 0 w,
     sliceAvg img h2 (Sheight : ℤ) ((4 * Swidth / 5 : ℕ) : ℤ) (Swidth : ℤ)]
  let segments : List (Option ℚ) :=
    [sliceAvg img 0 h ((2 * Swidth / 5 : ℕ) : ℤ) ((3 * Swidth / 5 : ℕ) : ℤ),
     sliceAvg img h h2 0 (Swidth : ℤ),
     sliceAvg img h2 (Sheight : ℤ) ((2 * Swidth / 5 : ℕ) : ℤ) ((3 * Swidth / 5 : ℕ) : ℤ)]
  segments.all (fun s => darks.all (fun d => oLt d s))

/-- The classification read_char falls into below its mid-height branch
(lines 370-390): '1' for very tall glyphs, 7-segment lookup for aspect
ratios in (1.1, 4), otherwise unrecognized. -/
def read_char_full (img : Img) : String × Option (List ℕ) :=
  if 4 ≤ aspectRate img then ("1", some [0,0,1,0,0,1,0])
  else if 11/10 < aspectRate img ∧ aspectRate img < 4 then
    match DIGITS_LOOKUP (segTuple img) with
    | some s => (s, some (segTuple img))
    | none => ("*", some (segTuple img))
  else ("", none)

/-- read_char (readdigits.py lines 336-390).  Note that when the
mid-height branch's aspect ratio lies in (0.4, 3) but the plus test
fails, the Python code has no return statement and control falls
through to the full-size classification. -/
def read_char (img : Img) (max_height : ℕ) : String × Option (List ℕ) :=
  if (shapeH img : ℚ) * 5 < (max_height : ℚ) then
    (if aspectRate img < 2/5 then ("-", none) else (".", none))
  else if (shapeH img : ℚ) * 9/5 < (max_height : ℚ) then
    (if 2/5 < aspectRate img ∧ aspectRate img < 3 then
      (if plusTest img then ("+", none) else read_char_full img)
     else ("", none))
  else read_char_full img

/-- One iteration of the index loop of __nonzerolist (lines 271-284).
State is (accumulated ranges, start_, end_). -/
def nonzerolistStep (in_list : List ℕ) (st : List (ℕ × ℕ) × ℕ × ℕ) (i : ℕ) :
    List (ℕ × ℕ) × ℕ × ℕ :=
  let a := st.1
  let start_ := st.2.1
  let x := in_list.getD i 0
  if 0 < x then
    if 0 < i ∧ in_list.getD (i - 1) 0 = 0 then (a, i, st.2.2)
    else if i = in_list.length - 1 then (a ++ [(start_, i)], start_, i)
    else st
  else
    if i = 0 then st
    else if 0 < in_list.getD (i - 1) 0 then (a ++ [(start_, i)], start_, i)
    else st

/-- __nonzerolist (readdigits.py lines 267-284): collect the (start, end)
pairs of nonzero runs of the input list. -/
def nonzerolist (in_list : List ℕ) : List (ℕ × ℕ) :=
  ((List.range in_list.length).foldl (nonzerolistStep in_list) ([], 0, 0)).1

/-- The scan of __cut_zeros (lines 292-301) on an intensity list: the
first index with positive value, and length minus the first such index
from the end (both 0 when no positive value exists). -/
def cut_zeros_list (in_list : List ℕ) : ℕ × ℕ :=
  let start_ := (in_list.findIdx? (fun x => decide (0 < x))).getD 0
  let end_ :=
    match in_list.reverse.findIdx? (fun x => decide (0 < x)) with
    | some i => in_list.length - i
    | none => 0
  (start_, end_)

/-- __cut_zeros with dim=2 (lines 286-301): trim on per-row sums. -/
def cut_zeros (x_array : Img) : ℕ × ℕ :=
  cut_zeros_list (x_array.map List.sum)

/-- np.sum(img, axis=0): per-column intensity sums. -/
def colsums (img : Img) : List ℕ :=
  (List.range (shapeW img)).map (fun j => (img.map (fun row => row.getD j 0)).sum)

/-- __search_char (readdigits.py lines 317-334): split the binarized
image at blank columns, trim each piece's blank top/bottom rows, and
drop pieces smaller than a tenth of the largest piece. -/
def search_char (img : Img) : List Img × List (ℕ × ℕ × ℕ × ℕ) :=
  let tate_wa := colsums img
  let segsy := nonzerolist tate_wa
  if segsy = [] then ([], [])
  else
    let segsx := segsy.map (fun y =>
      cut_zeros (img.map (fun row => pySlice row (y.1 : ℤ) (y.2 : ℤ))))
    let segs_temp := (segsx.zip segsy).map (fun p =>
      (pySlice img (p.1.1 : ℤ) (p.1.2 : ℤ)).map
        (fun row => pySlice row (p.2.1 : ℤ) (p.2.2 : ℤ)))
    let coor_temp := (segsx.zip segsy).map (fun p => (p.1.1, p.1.2, p.2.1, p.2.2))
    let min_size : ℚ :=
      (((segs_temp.map (fun s => min (shapeH s) (shapeW s))).foldl max 0 : ℕ) : ℚ) / 10
    let keep : Img → Bool := fun s =>
      decide (min_size < (shapeH s : ℚ)) && decide (min_size < (shapeW s : ℚ))
    (segs_temp.filter keep,
     (segs_temp.zip coor_temp).filterMap (fun p => if keep p.1 then some p.2 else none))

/-- get_digit from the binarized region onward (readdigits.py lines
395-401; the perspective trim and Otsu threshold are external cv2
operations).  `max([x[1]-x[0] for x in coordinates])` raises ValueError
in Python when the coordinate list is empty. -/
def get_digit_th (th : Img) : Except String (List String × List (ℕ × ℕ × ℕ × ℕ)) :=
  let sc := search_char th
  if sc.2 = [] then .error "ValueError"
  else
    let max_height := (sc.2.map (fun x => x.2.1 - x.1)).foldl max 0
    .ok (sc.1.map (fun i => (read_char i max_height).1), sc.2)

/-- Corners (readdigits.py lines 62-73): the four display corners in
matplotlib (width, height) order. -/
structure Corners where
  TLw : ℚ
  TLh : ℚ
  TRw : ℚ
  TRh : ℚ
  BLw : ℚ
  BLh : ℚ
  BRw : ℚ
  BRh : ℚ
deriving DecidableEq

/-- Field names of Corners, standing in for the string keys the source
uses to index `_asdict()`. -/
inductive CField | TLw | TLh | TRw | TRh | BLw | BLh | BRw | BRh
deriving DecidableEq

/-- Corners._asdict(): field access by name. -/
def Corners.asdict (c : Corners) : CField → ℚ
  | .TLw => c.TLw
  | .TLh => c.TLh
  | .TRw => c.TRw
  | .TRh => c.TRh
  | .BLw => c.BLw
  | .BLh => c.BLh
  | .BRw => c.BRw
  | .BRh => c.BRh

/-- Rebuild a Corners from a field dictionary (the `cls(**d)` call). -/
def Corners.ofDict (d : CField → ℚ) : Corners :=
  ⟨d .TLw, d .TLh, d .TRw, d .TRh, d .BLw, d .BLh, d .BRw, d .BRh⟩

/-- Corners._from_2corners (lines 75-79): zero-skew quadrilateral from
the top-left and bottom-right corners. -/
def Corners.from_2corners (TLw TLh BRw BRh : ℚ) : Corners :=
  ⟨TLw, TLh, BRw, TLh, TLw, BRh, BRw, BRh⟩

/-- Newton iteration for the integer square root, with explicit fuel so
that the kernel can evaluate it: starting above √n, the iterate
decreases until it reaches ⌊√n⌋. -/
def isqrtGo (n : ℕ) : ℕ → ℕ → ℕ
  | 0, x => x
  | fuel + 1, x =>
    let next := (x + n / x) / 2
    if next < x then isqrtGo n fuel next else x

/-- ⌊√n⌋ for natural n. -/
def isqrt (n : ℕ) : ℕ :=
  if n ≤ 1 then n else isqrtGo n n (n / 2 + 1)

/-- round(√q) for q ≥ 0, computed with integer square roots: round(√(a/b))
equals ⌊(⌊√(4ab)⌋ + b) / (2b)⌋.  An exact half-integer √q cannot arise
from integer coordinates, so the tie behavior of this formula is
immaterial there. -/
def sqrtRound (q : ℚ) : ℕ :=
  if q ≤ 0 then 0
  else (isqrt (4 * q.num.toNat * q.den) + q.den) / (2 * q.den)

/-- Python round(): nearest integer, ties to even. -/
def pyRound (q : ℚ) : ℤ :=
  let f := ⌊q⌋
  let r := q - (f : ℚ)
  if r < 1/2 then f
  else if 1/2 < r then f + 1
  else if f % 2 = 0 then f else f + 1

/-- Corners._get_size (lines 119-125): rounded Euclidean lengths of the
top edge and the left edge. -/
def Corners.get_size (c : Corners) : ℕ × ℕ :=
  let wid := sqrtRound ((c.TRw - c.TLw) ^ 2 + (c.TRh - c.TLh) ^ 2)
  let hei := sqrtRound ((c.BLw - c.TLw) ^ 2 + (c.BLh - c.TLh) ^ 2)
  (wid, hei)

inductive PositionType | ratio | abs
deriving DecidableEq

/-- Corners._position_type (lines 108-112). -/
def Corners.position_type (c : Corners) : PositionType :=
  if ([c.TLw, c.TLh, c.TRw, c.TRh, c.BLw, c.BLh, c.BRw, c.BRh].all
      (fun v => decide (0 ≤ v) && decide (v ≤ 1))) then
    PositionType.ratio
  else PositionType.abs

/-- Corners._correct_angles (lines 127-153): with angle 0, rebuild the
axis-aligned parallelogram from top-left and bottom-right; otherwise
shift the top-right and bottom-left corners along the horizontal edge
directions by tan(angle) times the opposite vertical edge length, then
round.  The nonzero branch computes with real tangents and norms as the
floating-point source does (ties of the final rounding never arise from
its irrational values). -/
noncomputable def Corners.correct_angles (c : Corners) (angle : ℤ) : Corners :=
  if angle = 0 then ⟨c.TLw, c.TLh, c.BRw, c.TLh, c.TLw, c.BRh, c.BRw, c.BRh⟩
  else
    let TR : ℝ × ℝ := ((c.BRw : ℝ), (c.TLh : ℝ))
    let BL : ℝ × ℝ := ((c.TLw : ℝ), (c.BRh : ℝ))
    let TL : ℝ × ℝ := ((c.TLw : ℝ), (c.TLh : ℝ))
    let BR : ℝ × ℝ := ((c.BRw : ℝ), (c.BRh : ℝ))
    let norm2 : ℝ × ℝ → ℝ := fun v => Real.sqrt (v.1 ^ 2 + v.2 ^ 2)
    let sub : ℝ × ℝ → ℝ × ℝ → ℝ × ℝ := fun a b => (a.1 - b.1, a.2 - b.2)
    let yokoT := sub TR TL
    let yokoB := sub BR BL
    let tateL := norm2 (sub BL TL)
    let tateR := norm2 (sub BR TR)
    let t := Real.tan ((angle : ℝ) * Real.pi / 180)
    let tmp_TRw := TR.1 + yokoT.1 / norm2 yokoT * tateR * t
    let tmp_TRh := TR.2 + yokoT.2 / norm2 yokoT * tateR * t
    let tmp_BLw := BL.1 - yokoB.1 / norm2 yokoB * tateL * t
    let tmp_BLh := BL.2 - yokoB.2 / norm2 yokoB * tateL * t
    ⟨c.TLw, c.TLh, ((round tmp_TRw : ℤ) : ℚ), ((round tmp_TRh : ℤ) : ℚ),
     ((round tmp_BLw : ℤ) : ℚ), ((round tmp_BLh : ℤ) : ℚ), c.BRw, c.BRh⟩

/-- Corners._calc_transform_matrix (lines 155-164): the source corner
quadrilateral, target rectangle and target size handed to the external
cv2.getPerspectiveTransform solve. -/
def Corners.calc_transform_data (c : Corners) :
    List (ℚ × ℚ) × List (ℚ × ℚ) × (ℕ × ℕ) :=
  let p_original := [(c.TLw, c.TLh), (c.TRw, c.TRh), (c.BRw, c.BRh), (c.BLw, c.BLh)]
  let wh := c.get_size
  let p_trans : List (ℚ × ℚ) :=
    [(0, 0), ((wh.1 : ℚ), 0), ((wh.1 : ℚ), (wh.2 : ℚ)), (0, (wh.2 : ℚ))]
  (p_original, p_trans, wh)

/-- Corners._mod (lines 178-184): shift one named coordinate by a
percentage of the quadrilateral's width, through a copy of the field
dictionary. -/
def Corners.mod (c : Corners) (key : CField) (mod : ℤ) : Corners :=
  let w := (c.get_size).1
  let modw := pyRound ((mod : ℚ) / 100 * (w : ℚ))
  Corners.ofDict (fun k => if k = key then c.asdict k + (modw : ℚ) else c.asdict k)

/-
State-passing forms of the Corners operations.  A Python method receives
the tuple `self`; NamedTuple fields cannot be assigned and no method
rebuilds `self` (the dictionary `_mod` mutates is a fresh `_asdict()`
copy), so each method hands the caller's value back unchanged alongside
its freshly constructed result.
-/

noncomputable def Corners.correct_anglesS (c : Corners) (angle : ℤ) : Corners × Corners :=
  (c.correct_angles angle, c)

def Corners.modS (c : Corners) (key : CField) (m : ℤ) : Corners × Corners :=
  (c.mod key m, c)

def Corners.get_sizeS (c : Corners) : (ℕ × ℕ) × Corners :=
  (c.get_size, c)

def Corners.position_typeS (c : Corners) : PositionType × Corners :=
  (c.position_type, c)

def Corners.calc_transform_dataS (c : Corners) :
    (List (ℚ × ℚ) × List (ℚ × ℚ) × (ℕ × ℕ)) × Corners :=
  (c.calc_transform_data, c)

/-- ''.join over the decoded character strings. -/
def strJoin (l : List String) : String := l.foldl (fun a s => a ++ s) ""

/-- The characters after an optional leading sign. -/
def stripSign (s : List Char) : List Char :=
  if s.headD ' ' == '+' || s.headD ' ' == '-' then s.drop 1 else s

/-- Whether Python float() accepts the string, for strings over the
decoder's output alphabet (digits, '.', '-', '+', '*'): an optional
sign, then digits with at most one dot and at least one digit. -/
def isPyFloat (s : List Char) : Bool :=
  let body := stripSign s
  body.all (fun ch => ch.isDigit || ch == '.') &&
    decide (body.count '.' ≤ 1) && body.any Char.isDigit

/-- Decimal digits to a natural number. -/
def parseDigits (l : List Char) : ℕ :=
  l.foldl (fun a c => 10 * a + (c.toNat - 48)) 0

/-- The value Python float() returns on the strings isPyFloat accepts
(exact, since every such literal is a decimal fraction). -/
def pyFloatVal (s : List Char) : Option ℚ :=
  if isPyFloat s then
    let sgn : ℚ := if s.headD ' ' == '-' then -1 else 1
    let body := stripSign s
    let ip := body.takeWhile (fun c => c != '.')
    let fp := (body.dropWhile (fun c => c != '.')).drop 1
    some (sgn * ((parseDigits ip : ℚ) + (parseDigits fp : ℚ) / ((10 : ℚ) ^ fp.length)))
  else none

/-- The acceptance test of find_good_angle's decimal-point refinement:
the decoded characters joined parse as a float and contain '.'. -/
def decode_numeric_dot (chars : List String) : Bool :=
  isPyFloat (strJoin chars).data && chars.contains "."

/-- The decimal-point refinement of find_good_angle in numeric mode
(readdigits.py lines 457-482), with the decode pipeline get_digit
abstracted as an oracle `g` on geometries: if the unshifted decode is
already a number containing a dot, keep the geometry; otherwise try
shifting TRw by +3, +6, -3, -6 percent of the width, remembering in
res_dot every shift whose decode is a number containing a dot (the
source has no break, so a later success overwrites an earlier one). -/
def dot_refine (g : Corners → List String) (corners_res : Corners) : Corners :=
  if decode_numeric_dot (g corners_res) then corners_res
  else
    let check : List ℤ := [3, 6, -3, -6]
    let res_dot := check.foldl (fun res_dot i =>
      if decode_numeric_dot (g (Corners.mod corners_res .TRw i)) then
        some (Corners.mod corners_res .TRw i)
      else res_dot) none
    match res_dot with
    | some c => c
    | none => corners_res

/-- The per-record value computation of gui.read_alldata (gui.py lines
695-703): float parse with NaN fallback, then min/max clamping; `none`
models NaN (a NaN never compares below min or above max). -/
def read_alldata_value (txt : String) (check_min check_max : Bool)
    (min_num max_num : ℚ) : Option ℚ :=
  let v0 : Option ℚ := pyFloatVal txt.data
  let v1 := if check_min &&
      (match v0 with | some q => decide (q < min_num) | none => false) then none else v0
  let v2 := if check_max &&
      (match v1 with | some q => decide (max_num < q) | none => false) then none else v1
  v2

abbrev Coord4 := ℤ × ℤ × ℤ × ℤ

/-- __compare_segment (readdigits.py lines 521-526): positions where the
mask holds 0 or 1 must match; other positions are ignored; a missing
tuple never matches. -/
def compare_segment (ta : Option (List ℕ)) (tb : List (Option ℕ)) : Bool :=
  match ta with
  | none => false
  | some l => ((l.zip tb).map (fun p =>
      match p.2 with
      | some 1 => decide (p.1 = 1)
      | some 0 => decide (p.1 = 0)
      | _ => true)).all id

/-- Python list.insert(n, a). -/
def insertAt {α : Type} (n : ℕ) (a : α) (l : List α) : List α :=
  l.take n ++ a :: l.drop n

/-- The merge loop of assemble_bars (lines 554-567).  After each merge
the source iterates the remaining pending pairs and runs `pp[0] -= 1`;
pops holds immutable tuples, so Python raises TypeError as soon as a
remaining pair's index exceeds the popped one. -/
def merge_loop : List (ℕ × ℤ) → List Coord4 → Except String (List Coord4)
  | [], coordinates => .ok coordinates
  | p :: pops, coordinates =>
    let main := coordinates.getD p.1 (0, 0, 0, 0)
    let coords1 := coordinates.eraseIdx p.1
    let idx2 := (p.1 + p.2).toNat
    let con := coords1.getD idx2 (0, 0, 0, 0)
    let coords2 := coords1.eraseIdx idx2
    let merged : Coord4 :=
      if p.2 = -1 then
        (con.1, main.2.1, min con.2.2.1 main.2.2.1, max con.2.2.2 main.2.2.2)
      else
        (main.1, con.2.1, min con.2.2.1 main.2.2.1, max con.2.2.2 main.2.2.2)
    let coords3 := insertAt idx2 merged coords2
    if pops.any (fun pp => decide (p.1 < pp.1)) then .error "TypeError"
    else merge_loop pops coords3

/-- assemble_bars (readdigits.py lines 528-568): schedule a merge of a
glyph with no left/right vertical segments onto an adjacent narrow bar
decoded as '' or '1' when the gap is small enough, then execute the
merges. -/
def assemble_bars (res : List String) (segments : List (Option (List ℕ)))
    (coordinates : List Coord4) : Except String (List Coord4) :=
  if !(res.contains "" || res.contains "1") then .ok coordinates
  else
    let mask : List (Option ℕ) := [none, some 0, none, none, some 0, none, none]
    let pops := (List.range res.length).foldl (fun pops i =>
      if compare_segment (segments.getD i none) mask then
        let pops1 :=
          if 0 < i ∧ (res.getD (i - 1) "") ∈ (["", "1"] : List String) then
            let ci := coordinates.getD i (0, 0, 0, 0)
            let cb := coordinates.getD (i - 1) (0, 0, 0, 0)
            let wid_self := ci.2.1 - ci.1
            let wid_bar := cb.2.1 - cb.1
            let gap := ci.1 - cb.2.1
            if gap < wid_bar ∧ wid_bar * 2 < wid_self then pops ++ [(i, (-1 : ℤ))]
            else pops
          else pops
        if i < res.length - 1 ∧ (res.getD (i + 1) "") ∈ (["", "1"] : List String) then
          let ci := coordinates.getD i (0, 0, 0, 0)
          let cb := coordinates.getD (i + 1) (0, 0, 0, 0)
          let wid_self := ci.2.1 - ci.1
          let wid_bar := cb.2.1 - cb.1
          let gap := cb.1 - ci.2.1
          if gap < wid_bar ∧ wid_bar * 2 < wid_self then pops1 ++ [(i, (0 : ℤ))]
          else pops1
        else pops1
      else pops) []
    merge_loop pops coordinates

/-- The columns of an image, used to express the cv2 rotation codes. -/
def columnsOf (img : Img) : Img :=
  (List.range (shapeW img)).map (fun j => img.map (fun row => row.getD j 0))

def rot90cw (img : Img) : Img := (columnsOf img).map List.reverse

def rot180 (img : Img) : Img := (img.map List.reverse).reverse

def rot90ccw (img : Img) : Img := (columnsOf img).reverse

/-- rotate_image (readdigits.py lines 240-251): rotate only for 90, 180
or 270 degrees; every other angle returns the input image. -/
def rotate_image (img : Img) (angle : ℤ) : Img :=
  if angle = 90 then rot90cw img
  else if angle = 180 then rot180 img
  else if angle = 270 then rot90ccw img
  else img

/-- A 9x4 binarized glyph whose seven zone samples light the pattern of
the digit 0. -/
def imgZero : Img :=
  [[0, 255, 255, 0],
   [255, 0, 255, 0],
   [255, 0, 255, 0],
   [0, 0, 0, 0],
   [0, 0, 0, 0],
   [255, 0, 255, 0],
   [255, 0, 255, 0],
   [0, 255, 255, 0],
   [0, 255, 255, 0]]

/-- A uniformly bright 12x6 glyph: its corner samples are not darker
than its cross samples, and no zone exceeds the darkness threshold. -/
def imgAll255 : Img := List.replicate 12 (List.replicate 6 255)

/-- A 100x100 axis-aligned quadrilateral. -/
def cQuad : Corners := Corners.from_2corners 0 0 100 100

/-- A decode oracle for which both the +3 and the +6 percent shifts of
cQuad yield a number containing a decimal point, while every other
geometry (the unshifted one included) decodes to a plain number. -/
def gOracle : Corners → List String := fun c =>
  if c = Corners.mod cQuad .TRw 3 then ["1", ".", "2"]
  else if c = Corners.mod cQuad .TRw 6 then ["3", ".", "4"]
  else ["9"]

/-- A sample quadrilateral for evaluating the Corners operations. -/
def cEx : Corners := ⟨1, 2, 9, 2, 1, 7, 9, 7⟩

/-- Decoded characters scheduling two bar merges at indices 1 and 3:
glyphs 1 and 3 have no left vertical segments and their left neighbors
are narrow '1' bars close by. -/
def resBars : List String := ["1", "3", "1", "3"]

def segsBars : List (Option (List ℕ)) :=
  [some [0, 0, 1, 0, 0, 1, 0], some [1, 0, 1, 1, 0, 1, 1],
   some [0, 0, 1, 0, 0, 1, 0], some [1, 0, 1, 1, 0, 1, 1]]

def coordsBars : List Coord4 :=
  [(0, 2, 0, 2), (3, 10, 0, 2), (20, 22, 0, 2), (23, 30, 0, 2)]

/-
Theorems.
-/

theorem asdict_ofDict (d : CField → ℚ) (k : CField) :
    (Corners.ofDict d).asdict k = d k := by
  cases k <;> rfl

/-- Claim C5: correct_angles with angle 0 rebuilds the identity
parallelogram whose top-right corner is (BRw, TLh) and bottom-left
corner is (TLw, BRh), and applying it twice at angle 0 equals applying
it once. -/
theorem correct_angles_zero (c : Corners) :
    Corners.correct_angles c 0 =
      ⟨c.TLw, c.TLh, c.BRw, c.TLh, c.TLw, c.BRh, c.BRw, c.BRh⟩
    ∧ Corners.correct_angles (Corners.correct_angles c 0) 0 =
      Corners.correct_angles c 0 := by
  constructor <;> simp [Corners.correct_angles]

/-- Claim C9: the Corners operations are pure.  Each state-passing form
returns the received quadrilateral unchanged; _mod builds a new value
that differs from its input in exactly the keyed field, and
_from_2corners constructs a fresh zero-skew quadrilateral. -/
theorem corners_ops_pure (c : Corners) (angle : ℤ) (key : CField) (m : ℤ)
    (TLw TLh BRw BRh : ℚ) :
    (Corners.correct_anglesS c angle).2 = c
    ∧ (Corners.modS c key m).2 = c
    ∧ (Corners.get_sizeS c).2 = c
    ∧ (Corners.position_typeS c).2 = c
    ∧ (Corners.calc_transform_dataS c).2 = c
    ∧ (∀ k, k ≠ key → (Corners.mod c key m).asdict k = c.asdict k)
    ∧ (Corners.mod c key m).asdict key
        = c.asdict key + ((pyRound ((m : ℚ) / 100 * (((c.get_size).1 : ℕ) : ℚ)) : ℤ) : ℚ)
    ∧ Corners.from_2corners TLw TLh BRw BRh
        = ⟨TLw, TLh, BRw, TLh, TLw, BRh, BRw, BRh⟩ := by
  refine ⟨rfl, rfl, rfl, rfl, rfl, ?_, ?_, rfl⟩
  · intro k hk
    simp only [Corners.mod, asdict_ofDict]
    rw [if_neg hk]
  · simp [Corners.mod, asdict_ofDict]

theorem corners_ops_pure_witness :
    (Corners.modS cEx .TRw 3).2 = cEx
    ∧ (Corners.mod cEx .TRw 3).asdict .TLw = cEx.asdict .TLw :=
  ⟨(corners_ops_pure cEx 0 .TRw 3 0 0 0 0).2.1,
   (corners_ops_pure cEx 0 .TRw 3 0 0 0 0).2.2.2.2.2.1 .TLw (by decide)⟩

/-- Claim C10: rotate_image returns the input image unchanged for every
angle other than 90, 180 and 270 (0, negative and arbitrary angles
included). -/
theorem rotate_image_other_angles (img : Img) (angle : ℤ)
    (h90 : angle ≠ 90) (h180 : angle ≠ 180) (h270 : angle ≠ 270) :
    rotate_image img angle = img := by
  simp [rotate_image, h90, h180, h270]

theorem rotate_image_other_angles_witness :
    (45 : ℤ) ≠ 90 ∧ rotate_image [[1, 2], [3, 4]] 45 = [[1, 2], [3, 4]] :=
  ⟨by decide,
   rotate_image_other_angles [[1, 2], [3, 4]] 45 (by decide) (by decide) (by decide)⟩

/-- Claim C6: contrary to the claim that every nonzero column belongs to
some reported run, __nonzerolist drops a trailing run that starts at the
last index right after a zero: on [0, 1] the nonzero column 1 produces
no range at all (the start-of-run branch shadows the end-of-list branch
via elif). -/
theorem nonzerolist_drops_trailing_run :
    nonzerolist [0, 1] = [] ∧ 0 < List.getD [0, 1] 1 0 := by
  constructor
  · rfl
  · decide

/-- Claim C7: contrary to the claim that the merging loop runs to
completion and re-indexes pending merges, scheduling two merges at
distinct indices makes the re-index step `pp[0] -= 1` assign into an
immutable tuple, raising TypeError: on resBars/segsBars/coordsBars the
scan schedules merges at indices 1 and 3 and the loop errors. -/
theorem assemble_bars_reindex_crash :
    assemble_bars resBars segsBars coordsBars = Except.error "TypeError" := rfl

theorem list_getD_zero_of_all_zero :
    ∀ (l : List ℕ), (∀ s ∈ l, s = 0) → ∀ i, l.getD i 0 = 0 := by
  intro l
  induction l with
  | nil => intro _ i; cases i <;> rfl
  | cons x xs ih =>
    intro h i
    cases i with
    | zero => exact h x (List.mem_cons_self x xs)
    | succ j => exact ih (fun s hs => h s (List.mem_cons_of_mem x hs)) j

theorem nonzerolistStep_of_all_zero (l : List ℕ) (h : ∀ s ∈ l, s = 0)
    (st : List (ℕ × ℕ) × ℕ × ℕ) (i : ℕ) : nonzerolistStep l st i = st := by
  unfold nonzerolistStep
  rw [list_getD_zero_of_all_zero l h i, list_getD_zero_of_all_zero l h (i - 1)]
  simp

theorem foldl_of_fixed {β : Type} {f : β → ℕ → β} (hf : ∀ st i, f st i = st) :
    ∀ (idxs : List ℕ) (st : β), idxs.foldl f st = st := by
  intro idxs
  induction idxs with
  | nil => intro st; rfl
  | cons x xs ih => intro st; rw [List.foldl_cons, hf st x]; exact ih st

theorem nonzerolist_of_all_zero (l : List ℕ) (h : ∀ s ∈ l, s = 0) :
    nonzerolist l = [] := by
  unfold nonzerolist
  rw [foldl_of_fixed (nonzerolistStep_of_all_zero l h)]

/-- Claim C1: contrary to the claim that get_digit returns an empty
decode when the binarized region has no nonzero columns, __search_char
does fail softly with empty lists, but get_digit then computes the
maximum of the empty coordinate list, which raises ValueError in
Python. -/
theorem get_digit_raises_on_empty (th : Img)
    (h : ∀ s ∈ colsums th, s = 0) :
    get_digit_th th = Except.error "ValueError" := by
  have hnz : nonzerolist (colsums th) = [] := nonzerolist_of_all_zero _ h
  simp [get_digit_th, search_char, hnz]

theorem get_digit_raises_on_empty_witness :
    get_digit_th [[0, 0], [0, 0]] = Except.error "ValueError" :=
  get_digit_raises_on_empty [[0, 0], [0, 0]] (by decide)

unseal Rat.add Rat.mul Rat.inv Rat.sub in
/-- Claim C8: with clamping enabled, a decoded string parsing below the
minimum or above the maximum is replaced by NaN, a value inside the
range passes through unchanged, a parse failure yields NaN, and with
min 0 / max 100 the value 150 becomes NaN while 50 is unchanged. -/
theorem read_alldata_clamp (txt : String) (mn mx : ℚ) :
    (∀ v, pyFloatVal txt.data = some v → v < mn →
        read_alldata_value txt true true mn mx = none)
    ∧ (∀ v, pyFloatVal txt.data = some v → mx < v →
        read_alldata_value txt true true mn mx = none)
    ∧ (∀ v, pyFloatVal txt.data = some v → mn ≤ v → v ≤ mx →
        read_alldata_value txt true true mn mx = some v)
    ∧ (pyFloatVal txt.data = none → read_alldata_value txt true true mn mx = none)
    ∧ read_alldata_value "150" true true 0 100 = none
    ∧ read_alldata_value "50" true true 0 100 = some 50 := by
  refine ⟨?_, ?_, ?_, ?_, by decide, by decide⟩
  · intro v hv hlt
    simp [read_alldata_value, hv, hlt]
  · intro v hv hgt
    by_cases hlt : v < mn <;> simp [read_alldata_value, hv, hlt, hgt]
  · intro v hv hge hle
    simp [read_alldata_value, hv, not_lt.mpr hge, not_lt.mpr hle]
  · intro hv
    simp [read_alldata_value, hv]

unseal Rat.add Rat.mul Rat.inv Rat.sub in
theorem read_alldata_clamp_witness :
    pyFloatVal ("150" : String).data = some 150
    ∧ (100 : ℚ) < 150
    ∧ read_alldata_value "150" true true 0 100 = none :=
  ⟨by decide, by norm_num,
   (read_alldata_clamp "150" 0 100).2.1 150 (by decide) (by norm_num)⟩

/-- Claim C2: for a full-size glyph (height above 1/1.8 of the reference
maximum, aspect ratio strictly between 1.1 and 4), read_char returns the
table character for the sampled 7-bit tuple when the tuple is in
DIGITS_LOOKUP, and '*' with the raw tuple otherwise; the table maps
(1,1,1,0,1,1,1) to '0', (0,0,1,0,0,1,0) to '1', and the duplicate
tuples for '6', '7' and '9' each to their digit. -/
theorem read_char_fullsize_lookup (img : Img) (mh : ℕ)
    (h1 : (5 * (mh : ℚ)) / 9 < (shapeH img : ℚ))
    (h2 : 11/10 < aspectRate img) (h3 : aspectRate img < 4) :
    (∀ s, DIGITS_LOOKUP (segTuple img) = some s →
        read_char img mh = (s, some (segTuple img)))
    ∧ (DIGITS_LOOKUP (segTuple img) = none →
        read_char img mh = ("*", some (segTuple img)))
    ∧ DIGITS_LOOKUP [1,1,1,0,1,1,1] = some "0"
    ∧ DIGITS_LOOKUP [0,0,1,0,0,1,0] = some "1"
    ∧ DIGITS_LOOKUP [0,1,0,1,1,1,1] = some "6"
    ∧ DIGITS_LOOKUP [1,1,0,1,1,1,1] = some "6"
    ∧ DIGITS_LOOKUP [1,0,1,0,0,1,0] = some "7"
    ∧ DIGITS_LOOKUP [1,1,1,0,0,1,0] = some "7"
    ∧ DIGITS_LOOKUP [1,1,1,1,0,1,1] = some "9"
    ∧ DIGITS_LOOKUP [1,1,1,1,0,1,0] = some "9" := by
  have hS0 : (0 : ℚ) ≤ (shapeH img : ℚ) := Nat.cast_nonneg _
  have hb1 : ¬ ((shapeH img : ℚ) * 5 < (mh : ℚ)) := not_lt.mpr (by linarith)
  have hb2 : ¬ ((shapeH img : ℚ) * 9/5 < (mh : ℚ)) := not_lt.mpr (by linarith)
  have hfull : read_char img mh = read_char_full img := by
    unfold read_char
    rw [if_neg hb1, if_neg hb2]
  refine ⟨?_, ?_, by decide, by decide, by decide, by decide, by decide,
    by decide, by decide, by decide⟩
  · intro s hs
    rw [hfull]
    unfold read_char_full
    rw [if_neg (not_le.mpr h3), if_pos ⟨h2, h3⟩, hs]
  · intro hs
    rw [hfull]
    unfold read_char_full
    rw [if_neg (not_le.mpr h3), if_pos ⟨h2, h3⟩, hs]

unseal Rat.add Rat.mul Rat.inv Rat.sub in
theorem read_char_fullsize_lookup_witness :
    (5 * ((16 : ℕ) : ℚ)) / 9 < (shapeH imgZero : ℚ)
    ∧ read_char imgZero 16 = ("0", some [1, 1, 1, 0, 1, 1, 1]) := by
  have h := read_char_fullsize_lookup imgZero 16 (by decide) (by decide) (by decide)
  have ht : segTuple imgZero = [1, 1, 1, 0, 1, 1, 1] := by decide
  refine ⟨by decide, ?_⟩
  have h0 := h.1 "0" (by rw [ht]; decide)
  rw [ht] at h0
  exact h0

theorem digits_lookup_ne_plus (t : List ℕ) (s : String)
    (h : DIGITS_LOOKUP t = some s) : s ≠ "+" := by
  unfold DIGITS_LOOKUP at h
  by_cases c1 : t = [1,1,1,0,1,1,1]
  · rw [if_pos c1] at h; cases h; decide
  rw [if_neg c1] at h
  by_cases c2 : t = [0,0,1,0,0,1,0]
  · rw [if_pos c2] at h; cases h; decide
  rw [if_neg c2] at h
  by_cases c3 : t = [1,0,1,1,1,0,1]
  · rw [if_pos c3] at h; cases h; decide
  rw [if_neg c3] at h
  by_cases c4 : t = [1,0,1,1,0,1,1]
  · rw [if_pos c4] at h; cases h; decide
  rw [if_neg c4] at h
  by_cases c5 : t = [0,1,1,1,0,1,0]
  · rw [if_pos c5] at h; cases h; decide
  rw [if_neg c5] at h
  by_cases c6 : t = [1,1,0,1,0,1,1]
  · rw [if_pos c6] at h; cases h; decide
  rw [if_neg c6] at h
  by_cases c7 : t = [0,1,0,1,1,1,1]
  · rw [if_pos c7] at h; cases h; decide
  rw [if_neg c7] at h
  by_cases c8 : t = [1,1,0,1,1,1,1]
  · rw [if_pos c8] at h; cases h; decide
  rw [if_neg c8] at h
  by_cases c9 : t = [1,0,1,0,0,1,0]
  · rw [if_pos c9] at h; cases h; decide
  rw [if_neg c9] at h
  by_cases c10 : t = [1,1,1,0,0,1,0]
  · rw [if_pos c10] at h; cases h; decide
  rw [if_neg c10] at h
  by_cases c11 : t = [1,1,1,1,1,1,1]
  · rw [if_pos c11] at h; cases h; decide
  rw [if_neg c11] at h
  by_cases c12 : t = [1,1,1,1,0,1,1]
  · rw [if_pos c12] at h; cases h; decide
  rw [if_neg c12] at h
  by_cases c13 : t = [1,1,1,1,0,1,0]
  · rw [if_pos c13] at h; cases h; decide
  rw [if_neg c13] at h
  by_cases c14 : t = [0,0,0,1,0,0,0]
  · rw [if_pos c14] at h; cases h; decide
  rw [if_neg c14] at h
  exact Option.noConfusion h

theorem read_char_full_ne_plus (img : Img) : (read_char_full img).1 ≠ "+" := by
  unfold read_char_full
  split_ifs with h1 h2
  · decide
  · cases hl : DIGITS_LOOKUP (segTuple img) with
    | none => simp only [hl]; decide
    | some s => simp only [hl]; exact digits_lookup_ne_plus _ s hl
  · decide

unseal Rat.add Rat.mul Rat.inv Rat.sub in
/-- Claim C3 counterexample: imgAll255 with reference height 30 lies in
the mid-height band and fails the plus test, yet read_char classifies it
neither as '+' nor as empty (it falls through to the 7-segment lookup
and returns '*'), contradicting the claim that such a glyph is always
classified empty when the corner test fails. -/
theorem read_char_midheight_counterexample :
    (shapeH imgAll255 : ℚ) * 9/5 < ((30 : ℕ) : ℚ)
    ∧ ¬ ((shapeH imgAll255 : ℚ) * 5 < ((30 : ℕ) : ℚ))
    ∧ plusTest imgAll255 = false
    ∧ (read_char imgAll255 30).1 ≠ "+"
    ∧ (read_char imgAll255 30).1 ≠ "" := by decide

/-- Claim C3 (amended): for a glyph in the mid-height band, read_char
returns '+' iff the aspect ratio lies in (0.4, 3) and the four corner
samples are all darker than the three cross samples; when the aspect
ratio is outside (0.4, 3) the result is the empty classification; but
when the aspect ratio is inside (0.4, 3) and the corner test fails,
control falls through to the full-size classification instead of
returning empty. -/
theorem read_char_midheight_amended (img : Img) (mh : ℕ)
    (hw : 0 < shapeW img)
    (hband1 : (shapeH img : ℚ) * 9/5 < (mh : ℚ))
    (hband2 : ¬ ((shapeH img : ℚ) * 5 < (mh : ℚ))) :
    ((read_char img mh).1 = "+" ↔
       (2/5 < aspectRate img ∧ aspectRate img < 3 ∧ plusTest img = true))
    ∧ (¬ (2/5 < aspectRate img ∧ aspectRate img < 3) → read_char img mh = ("", none))
    ∧ ((2/5 < aspectRate img ∧ aspectRate img < 3) → plusTest img = false →
        read_char img mh = read_char_full img) := by
  have hmid : read_char img mh =
      (if 2/5 < aspectRate img ∧ aspectRate img < 3 then
        (if plusTest img then ("+", none) else read_char_full img)
       else ("", none)) := by
    unfold read_char
    rw [if_neg hband2, if_pos hband1]
  refine ⟨?_, ?_, ?_⟩
  · rw [hmid]
    constructor
    · intro hplus
      by_cases hc : 2/5 < aspectRate img ∧ aspectRate img < 3
      · rw [if_pos hc] at hplus
        by_cases hp : plusTest img
        · exact ⟨hc.1, hc.2, hp⟩
        · rw [if_neg hp] at hplus
          exact absurd hplus (read_char_full_ne_plus img)
      · rw [if_neg hc] at hplus
        exact absurd hplus (by decide)
    · rintro ⟨ha, hb, hp⟩
      rw [if_pos ⟨ha, hb⟩, if_pos hp]
  · intro hc
    rw [hmid, if_neg hc]
  · intro hc hp
    rw [hmid, if_pos hc, if_neg (by simp [hp])]

unseal Rat.add Rat.mul Rat.inv Rat.sub in
theorem read_char_midheight_amended_witness :
    plusTest imgAll255 = false
    ∧ read_char imgAll255 30 = read_char_full imgAll255 := by
  have h := read_char_midheight_amended imgAll255 30 (by decide) (by decide) (by decide)
  exact ⟨by decide, h.2.2 ⟨by decide, by decide⟩ (by decide)⟩

unseal Rat.add Rat.mul Rat.inv Rat.sub in
/-- Claim C4 counterexample: with decode oracle gOracle on cQuad the
first tried shift (+3 percent) already qualifies (numeric decode with a
decimal point), but dot_refine returns the +6 percent geometry: the
source keeps overwriting res_dot, so the LAST qualifying shift wins,
refuting the claim that the first one is accepted. -/
theorem dot_refine_counterexample :
    decode_numeric_dot (gOracle (Corners.mod cQuad .TRw 3)) = true
    ∧ dot_refine gOracle cQuad = Corners.mod cQuad .TRw 6
    ∧ Corners.mod cQuad .TRw 6 ≠ Corners.mod cQuad .TRw 3 := by decide

theorem foldl_accept_last {α β : Type} (P : α → Bool) (f : α → β) :
    ∀ (l : List α) (acc : Option β),
      List.foldl (fun acc i => if P i then some (f i) else acc) acc l
        = match List.find? P l.reverse with
          | some i => some (f i)
          | none => acc := by
  intro l
  induction l with
  | nil => intro acc; rfl
  | cons x xs ih =>
    intro acc
    rw [List.foldl_cons, ih, List.reverse_cons, List.find?_append]
    cases hxs : List.find? P xs.reverse with
    | some i => rfl
    | none => cases hP : P x <;> simp [List.find?, hP, Option.or]

/-- Claim C4 (amended): in the decimal-point refinement, when the
unshifted decode is not already a number containing a decimal point, the
LAST shift among +3, +6, -3, -6 percent whose re-decode parses as a
number and contains a decimal point determines the result geometry; if
no shift qualifies, the unshifted corrected geometry is returned. -/
theorem dot_refine_last_wins (g : Corners → List String) (c : Corners)
    (h : decode_numeric_dot (g c) = false) :
    dot_refine g c =
      match List.find? (fun i => decode_numeric_dot (g (Corners.mod c .TRw i)))
          (([3, 6, -3, -6] : List ℤ).reverse) with
      | some i => Corners.mod c .TRw i
      | none => c := by
  simp only [dot_refine, h, Bool.false_eq_true, if_false]
  rw [foldl_accept_last (fun i => decode_numeric_dot (g (Corners.mod c .TRw i)))
    (fun i => Corners.mod c .TRw i) ([3, 6, -3, -6] : List ℤ) none]
  cases hf : List.find? (fun i => decode_numeric_dot (g (Corners.mod c .TRw i)))
      (([3, 6, -3, -6] : List ℤ).reverse) <;> rfl

unseal Rat.add Rat.mul Rat.inv Rat.sub in
theorem dot_refine_last_wins_witness :
    decode_numeric_dot (gOracle cQuad) = false
    ∧ dot_refine gOracle cQuad
        = match List.find? (fun i => decode_numeric_dot (gOracle (Corners.mod cQuad .TRw i)))
            (([3, 6, -3, -6] : List ℤ).reverse) with
          | some i => Corners.mod cQuad .TRw i
          | none => cQuad :=
  ⟨by decide, dot_refine_last_wins gOracle cQuad (by decide)⟩
